import Mathlib

/-!
Verification of the buffering and clock-reconciliation engine of the
bebo/gst-wasapi audio capture element (gst-wasapi/gstwasapisrc.c).

The definitions below are a shallow embedding of the C source:
machine integers are modelled as Nat/Int with explicit two's-complement
wrapping where the C code narrows, byte buffers as lists of Nat, and the
capture read loop as a function over an explicit schedule of wait results.
Definitions marked "Modelled from the spec" follow the specification's
words and serve only as the abstract side of refinement statements.
-/

/-- Number of values of a 32-bit machine integer (C gint / guint). -/
def U32 : Nat := 4294967296

/-- Number of values of a 64-bit machine integer (C gint64 / guint64). -/
def U64 : Nat := 18446744073709551616

/-- Two's-complement reinterpretation of an unsigned value as a C gint,
as performed by the narrowing conversion guint64 -> gint. -/
def toGint (n : Nat) : Int :=
  if n % U32 < 2147483648 then ((n % U32 : Nat) : Int)
  else ((n % U32 : Nat) : Int) - (U32 : Int)

/-- Wrap-around of a mathematical integer into the C gint range, the
behaviour of overflowing 32-bit signed arithmetic. -/
def gintWrap (i : Int) : Int := (i + 2147483648) % (U32 : Int) - 2147483648

/-- Conversion of a C gint value to guint64 (cast (guint64)(gint)). -/
def gintToU64 (i : Int) : Nat := (i % (U64 : Int)).toNat

/-- Sentinel value of the guint64 fields next_sample and offset:
the C literal -1 converted to guint64, meaning "no prior read" /
"no explicit offset". -/
def SAMPLE_NONE : Nat := U64 - 1

/-- Shallow embedding of gst_audio_base_src_get_offset
(gstwasapisrc.c lines 968-1013).  Inputs: src->next_sample (guint64,
SAMPLE_NONE when unset), ringbuffer->samples_per_seg (positive gint,
taken as Nat), spec.segtotal and the bias-corrected segdone
(g_atomic_int_get (segdone) - segbase), both gint.  readseg is the C
gint local, hence the narrowing conversion; diff is gint arithmetic. -/
def gst_audio_base_src_get_offset (next_sample : Nat) (sps : Nat)
    (segtotal segdone : Int) : Nat :=
  let sample := next_sample
  if sample ≠ SAMPLE_NONE then
    let readseg : Int := toGint (sample / sps)
    let diff : Int := gintWrap (segdone - readseg)
    if diff ≥ segtotal then gintToU64 segdone * sps % U64 else sample
  else gintToU64 segdone * sps % U64

/-- GST_CLOCK_DIFF from gstclock.h: (GstClockTimeDiff)((e) - (s)). -/
def GST_CLOCK_DIFF (s e : Int) : Int := e - s

/-- The timestamp_diff actually computed by the code at line 1191:
ABS (GST_CLOCK_DIFF (timestamp, base_time)).  Note that the current
reading of the reference clock does not occur in this expression. -/
def timestamp_diff_code (timestamp base_time : Int) : Int :=
  |GST_CLOCK_DIFF timestamp base_time|

/-- Modelled from the spec: section 4.5 defines
timestamp_diff = |reference_clock_now - base_time - timestamp|.
This is the abstract side of the comparison for claim C3; the code's
expression is timestamp_diff_code above. -/
def timestamp_diff_spec (reference_clock_now base_time timestamp : Int) : Int :=
  |reference_clock_now - base_time - timestamp|

/-- Per-pull drift state of the Resample slaving branch:
self->initial_timestamp_diff (gint64, 0 meaning unset) and
self->drift_correction_count. -/
structure DriftState where
  initial_timestamp_diff : Int
  drift_correction_count : Nat
deriving DecidableEq, Repr

/-- Shallow embedding of the drift-correction step of the Resample
branch (gstwasapisrc.c lines 1192-1201): latch initial_timestamp_diff on
the second sample (first_sample false and initial still 0), compute
drift_ns (zero unless timestamp_diff > 0), and on drift_ns above the
threshold set drift_correction, reset the latch and bump the counter.
Returns (drift_correction, new state). -/
def driftStep (drift_correction_threshold : Int) (first_sample : Bool)
    (timestamp_diff : Int) (s : DriftState) : Bool × DriftState :=
  let init1 : Int :=
    if first_sample = false ∧ s.initial_timestamp_diff = 0 then timestamp_diff
    else s.initial_timestamp_diff
  let drift_ns : Int := if timestamp_diff > 0 then |init1 - timestamp_diff| else 0
  if drift_ns > drift_correction_threshold then
    (true, ⟨0, s.drift_correction_count + 1⟩)
  else
    (false, ⟨init1, s.drift_correction_count⟩)

/-- Resync trigger of the Resample branch (gstwasapisrc.c lines
1225-1227): segment_skew at least segtotal, cold-start read segment 0,
first sample of the session, or a drift correction. -/
def resampleResync (segment_skew segtotal last_read_segment : Int)
    (first_sample drift_correction : Bool) : Prop :=
  segment_skew ≥ segtotal ∨ last_read_segment = 0 ∨
    first_sample = true ∨ drift_correction = true

instance (a b c : Int) (d e : Bool) : Decidable (resampleResync a b c d e) := by
  unfold resampleResync; infer_instance

/- The capture read path: overflow buffer and drain loop
   (gst_wasapi_src_read, gstwasapisrc.c lines 718-902). -/

/-- The overflow spill buffer state of GstWasapiSrc: overflow_buffer (a
byte array of overflow_buffer_size bytes, modelled as a list whose
length is the size), overflow_buffer_ptr and overflow_buffer_length. -/
structure OvState where
  buf : List Nat
  ptr : Nat
  len : Nat
deriving DecidableEq, Repr

/-- The bytes currently held by the overflow buffer, in the order they
will be returned: the valid region starts at the read pointer. -/
def ovContents (st : OvState) : List Nat := (st.buf.drop st.ptr).take st.len

/-- Shallow embedding of the overflow restore block at the top of
gst_wasapi_src_read (lines 737-754): copy min(length, wanted) bytes from
the read pointer, then either reset pointer and length (fully drained)
or advance the pointer.  Returns (bytes copied out, remaining wanted,
new overflow state). -/
def ovRestore (st : OvState) (wanted : Nat) : List Nat × Nat × OvState :=
  if 0 < st.len then
    let n := min st.len wanted
    let out := (st.buf.drop st.ptr).take n
    if n = st.len then (out, wanted - n, ⟨st.buf, 0, 0⟩)
    else (out, wanted - n, ⟨st.buf, st.ptr + n, st.len - n⟩)
  else ([], wanted, st)

/-- Overwrite bytes of buf starting at index i (memcpy into the array). -/
def writeAt (buf : List Nat) (i : Nat) (bytes : List Nat) : List Nat :=
  buf.take i ++ bytes ++ buf.drop (i + bytes.length)

/-- Shallow embedding of the overflow save block (lines 843-859): if
overflow_buffer_length + save_length + overflow_buffer_ptr would exceed
overflow_buffer_size the whole chunk is dropped with an error log;
otherwise the bytes are written at index overflow_buffer_length and the
length grows. -/
def ovSave (size : Nat) (st : OvState) (bytes : List Nat) : OvState :=
  if st.len + bytes.length + st.ptr > size then st
  else ⟨writeAt st.buf st.len bytes, st.ptr, st.len + bytes.length⟩

/-- One burst handed out by IAudioCaptureClient::GetBuffer: the SILENT
buffer flag and the device payload (have_frames * nBlockAlign bytes). -/
structure Burst where
  silent : Bool
  data : List Nat
deriving DecidableEq, Repr

/-- Shallow embedding of the inner drain loop body applied to the
bursts available in one wake (lines 786-864): per burst, copy
min(have_frames, want_frames) frames to the destination (zero-filled
when the burst is silence-flagged), and when the burst holds more
frames than fit, spill the remaining raw payload bytes to the overflow
buffer.  Returns (destination bytes, remaining wanted, overflow state). -/
def drainBursts (bpf size : Nat) : List Burst → Nat → OvState → List Nat × Nat × OvState
  | [], wanted, st => ([], wanted, st)
  | b :: bs, wanted, st =>
    let have_frames := b.data.length / bpf
    let want_frames := wanted / bpf
    let n_frames := min have_frames want_frames
    let read_len := n_frames * bpf
    let piece := if b.silent then List.replicate read_len 0 else b.data.take read_len
    let st1 := if have_frames > want_frames
      then ovSave size st ((b.data.take (have_frames * bpf)).drop read_len)
      else st
    let r := drainBursts bpf size bs (wanted - read_len) st1
    (piece ++ r.1, r.2.1, r.2.2)

/-- One result of the dual WaitForMultipleObjects in the read loop
(lines 762-781): either the data-ready event fired and GetBuffer yields
the listed bursts before reporting AUDCLNT_S_BUFFER_EMPTY, or the stop
event fired.  Both events are created with bManualReset = FALSE (lines
266-267), i.e. auto-reset: a signalled event releases exactly one wait
and is consumed by it, which the schedule models by each element being
used by exactly one wait. -/
inductive Wake where
  | dataReady (bursts : List Burst)
  | stopSignal
deriving DecidableEq, Repr

/-- Shallow embedding of the outer while (wanted > 0) loop of
gst_wasapi_src_read (lines 756-865) under a given schedule of wait
results: a stop wake zero-fills the still-unsatisfied remainder and
finishes (the call then returns the full requested length); a data wake
drains all its bursts.  none models the call still blocking when the
schedule is exhausted with wanted > 0. -/
def readLoop (bpf size : Nat) : List Wake → Nat → OvState → Option (List Nat × OvState)
  | _, 0, st => some ([], st)
  | [], Nat.succ _, _ => none
  | Wake.stopSignal :: _, Nat.succ w, st => some (List.replicate (w + 1) 0, st)
  | Wake.dataReady bs :: rest, Nat.succ w, st =>
    let r := drainBursts bpf size bs (w + 1) st
    match readLoop bpf size rest r.2.1 r.2.2 with
    | some (o2, stf) => some (r.1 ++ o2, stf)
    | none => none

/-- Shallow embedding of one gst_wasapi_src_read call on the data path
(restart handling and device-loss paths are modelled separately):
restore from the overflow buffer first, then run the wait/drain loop.
Returns the destination buffer contents and the new overflow state. -/
def wasapiRead (bpf size : Nat) (st : OvState) (length : Nat) (wakes : List Wake) :
    Option (List Nat × OvState) :=
  let p := ovRestore st length
  match readLoop bpf size wakes p.2.1 p.2.2 with
  | some (o, stf) => some (p.1 ++ o, stf)
  | none => none

/-- A sequence of read calls, each with its requested length and wait
schedule, threading the overflow state through the session. -/
def runReads (bpf size : Nat) : List (Nat × List Wake) → OvState →
    Option (List (List Nat) × OvState)
  | [], st => some ([], st)
  | (w, ws) :: calls, st =>
    match wasapiRead bpf size st w ws with
    | some (o, st1) =>
      match runReads bpf size calls st1 with
      | some (os, stf) => some (o :: os, stf)
      | none => none
    | none => none

/- Abstract FIFO model of the overflow buffer, the specification side
of claim C1. -/

/-- Modelled from the spec (section 4.1): push(bytes) appends to the
tail if capacity allows; if it would overflow capacity the excess is
dropped (lossy, non-fatal). -/
def fifoPush (size : Nat) (q bytes : List Nat) : List Nat :=
  if q.length + bytes.length > size then q else q ++ bytes

/-- Modelled from the spec: the drain loop against the abstract FIFO
queue; identical per-burst arithmetic, with spills appended to the
queue tail by fifoPush. -/
def fifoDrain (bpf size : Nat) : List Burst → Nat → List Nat → List Nat × Nat × List Nat
  | [], wanted, q => ([], wanted, q)
  | b :: bs, wanted, q =>
    let have_frames := b.data.length / bpf
    let want_frames := wanted / bpf
    let n_frames := min have_frames want_frames
    let read_len := n_frames * bpf
    let piece := if b.silent then List.replicate read_len 0 else b.data.take read_len
    let q1 := if have_frames > want_frames
      then fifoPush size q ((b.data.take (have_frames * bpf)).drop read_len)
      else q
    let r := fifoDrain bpf size bs (wanted - read_len) q1
    (piece ++ r.1, r.2.1, r.2.2)

/-- Modelled from the spec: the wait/drain loop against the abstract
FIFO queue. -/
def fifoReadLoop (bpf size : Nat) : List Wake → Nat → List Nat → Option (List Nat × List Nat)
  | _, 0, q => some ([], q)
  | [], Nat.succ _, _ => none
  | Wake.stopSignal :: _, Nat.succ w, q => some (List.replicate (w + 1) 0, q)
  | Wake.dataReady bs :: rest, Nat.succ w, q =>
    let r := fifoDrain bpf size bs (w + 1) q
    match fifoReadLoop bpf size rest r.2.1 r.2.2 with
    | some (o2, qf) => some (r.1 ++ o2, qf)
    | none => none

/-- Modelled from the spec (section 4.1): one read call against the
abstract FIFO queue.  pop(want) returns min(valid_length, want) bytes
from the head in FIFO order, and those bytes open the output, before
any bytes freshly fetched from the device. -/
def fifoRead (bpf size : Nat) (q : List Nat) (length : Nat) (wakes : List Wake) :
    Option (List Nat × List Nat) :=
  match fifoReadLoop bpf size wakes (length - min q.length length) (q.drop length) with
  | some (o, qf) => some (q.take length ++ o, qf)
  | none => none

/-- Modelled from the spec: a sequence of read calls against the
abstract FIFO queue. -/
def fifoRun (bpf size : Nat) : List (Nat × List Wake) → List Nat →
    Option (List (List Nat) × List Nat)
  | [], q => some ([], q)
  | (w, ws) :: calls, q =>
    match fifoRead bpf size q w ws with
    | some (o, q1) =>
      match fifoRun bpf size calls q1 with
      | some (os, qf) => some (o :: os, qf)
      | none => none
    | none => none

/-- Well-formedness of the overflow state, maintained by the code: the
array has the allocated size, the valid region lies inside the array,
and an empty buffer has its read pointer reset. -/
def OvInv (size : Nat) (st : OvState) : Prop :=
  st.buf.length = size ∧ st.ptr + st.len ≤ size ∧ (st.len = 0 → st.ptr = 0)

instance (size : Nat) (st : OvState) : Decidable (OvInv size st) := by
  unfold OvInv; infer_instance

/-- The stronger alignment that holds whenever the drain loop can push:
the read pointer is 0 and the valid region is exactly the abstract
queue. -/
def OvAligned (size : Nat) (st : OvState) (q : List Nat) : Prop :=
  st.buf.length = size ∧ st.ptr = 0 ∧ st.len = q.length ∧ st.len ≤ size ∧
    ovContents st = q

/-- Relation between a concrete read result and an abstract FIFO read
result: same output bytes, and the overflow buffer holds exactly the
abstract queue. -/
def ovSim (size : Nat) : Option (List Nat × OvState) → Option (List Nat × List Nat) → Prop
  | some (o, st), some (o2, q) => o = o2 ∧ ovContents st = q ∧ OvInv size st
  | none, none => True
  | _, _ => False

/-- The same relation for whole call sequences. -/
def ovSimRun (size : Nat) : Option (List (List Nat) × OvState) →
    Option (List (List Nat) × List Nat) → Prop
  | some (os, st), some (os2, q) => os = os2 ∧ ovContents st = q ∧ OvInv size st
  | none, none => True
  | _, _ => False

/-- Loop-level relation: same output and still aligned. -/
def ovSimAligned (size : Nat) : Option (List Nat × OvState) →
    Option (List Nat × List Nat) → Prop
  | some (o, st), some (o2, q) => o = o2 ∧ OvAligned size st q
  | none, none => True
  | _, _ => False


/- The buffer-producer entry checks of gst_audio_base_src_create
   (gstwasapisrc.c lines 1015-1064). -/

/-- Outcome of resolving the starting sample of one pull: either the
wrong_offset error path (GST_ELEMENT_ERROR RESOURCE SEEK followed by
return GST_FLOW_ERROR, taken before the output buffer is allocated, so
no buffer is delivered), or the sample index the read proceeds from. -/
inductive CreateResult where
  | sequentialAccessViolation
  | proceed (sample : Nat)
deriving DecidableEq, Repr

/-- Shallow embedding of the offset resolution at the top of
gst_audio_base_src_create (lines 1054-1064): an explicit offset
(offset != -1) is divided by bytes-per-frame; if a previous read set
next_sample and the result differs from it, the call fails with the
sequential-access violation; otherwise the read proceeds from it.
Without an explicit offset the offset calculator decides. -/
def resolveStartSample (offset : Nat) (bpf : Nat) (next_sample : Nat)
    (sps : Nat) (segtotal segdone : Int) : CreateResult :=
  if offset ≠ SAMPLE_NONE then
    let sample := offset / bpf
    if next_sample ≠ SAMPLE_NONE ∧ sample ≠ next_sample then
      CreateResult.sequentialAccessViolation
    else CreateResult.proceed sample
  else
    CreateResult.proceed (gst_audio_base_src_get_offset next_sample sps segtotal segdone)

/- The device-loss path of gst_wasapi_src_read
   (gstwasapisrc.c lines 887-901). -/

/-- Shallow embedding of the device_disappeared handler: the
notification (a wasapi_restart element message) is posted only when
eos_sent is still FALSE, eos_sent is then set, and the call returns the
originally requested length.  Result: (notification emitted, new
eos_sent, returned length). -/
def deviceLossRead (eos_sent : Bool) (length : Nat) : Bool × Bool × Nat :=
  (!eos_sent, true, length)

/-- A session of read calls that all encounter device loss, threading
eos_sent; per call the emitted notification flag and returned length
are recorded. -/
def deviceLossTrace : Bool → List Nat → List (Bool × Nat)
  | _, [] => []
  | eos, l :: ls =>
    let r := deviceLossRead eos l
    (r.1, r.2.2) :: deviceLossTrace r.2.1 ls

/-- Number of device-lost notifications emitted along a trace. -/
def notifyCount (xs : List (Bool × Nat)) : Nat := (xs.filter (fun p => p.1)).length
/- Helper lemmas about the machine-integer helpers. -/

theorem gintWrap_eq_self (i : Int) (h1 : -2147483648 ≤ i) (h2 : i < 2147483648) :
    gintWrap i = i := by
  unfold gintWrap U32
  omega

theorem toGint_eq_self (n : Nat) (h : n < 2147483648) : toGint n = n := by
  unfold toGint U32
  have hm : n % 4294967296 = n := Nat.mod_eq_of_lt (by omega)
  simp [hm, h]

theorem gintToU64_of_nonneg (i : Int) (h0 : 0 ≤ i) (h1 : i < (U64 : Int)) :
    gintToU64 i = i.toNat := by
  unfold gintToU64
  rw [Int.emod_eq_of_lt h0 h1]

/- Helper lemmas for the overflow-buffer refinement. -/

theorem ovContents_length (size : Nat) (st : OvState) (h : OvInv size st) :
    (ovContents st).length = st.len := by
  obtain ⟨h1, h2, h3⟩ := h
  unfold ovContents
  rw [List.length_take, List.length_drop]
  omega

theorem ovAligned_inv (size : Nat) (st : OvState) (q : List Nat)
    (h : OvAligned size st q) : ovContents st = q ∧ OvInv size st := by
  obtain ⟨h1, h2, h3, h4, h5⟩ := h
  exact ⟨h5, h1, by omega, fun _ => h2⟩

theorem ovRestore_full (size : Nat) (st : OvState) (w : Nat) (h : OvInv size st)
    (hw : st.len ≤ w) :
    ovRestore st w = (ovContents st, w - st.len, ⟨st.buf, 0, 0⟩) := by
  obtain ⟨h1, h2, h3⟩ := h
  unfold ovRestore ovContents
  by_cases hl : 0 < st.len
  · have hn : min st.len w = st.len := Nat.min_eq_left hw
    simp [hl, hn]
  · have hl0 : st.len = 0 := by omega
    have hp0 : st.ptr = 0 := h3 hl0
    cases st
    simp_all

theorem ovRestore_partial (st : OvState) (w : Nat) (hw : w < st.len) :
    ovRestore st w = ((ovContents st).take w, 0, ⟨st.buf, st.ptr + w, st.len - w⟩) := by
  unfold ovRestore ovContents
  have hl : 0 < st.len := by omega
  have hn : min st.len w = w := Nat.min_eq_right (Nat.le_of_lt hw)
  have hne : ¬ (w = st.len) := by omega
  simp [hl, hn, hne, List.take_take, Nat.min_eq_left (Nat.le_of_lt hw)]

theorem ovSave_aligned (size : Nat) (st : OvState) (q bytes : List Nat)
    (h : OvAligned size st q) :
    OvAligned size (ovSave size st bytes) (fifoPush size q bytes) := by
  obtain ⟨hbuf, hptr, hlen, hle, hcon⟩ := h
  unfold ovSave fifoPush
  by_cases hcap : st.len + bytes.length + st.ptr > size
  · have hq : q.length + bytes.length > size := by omega
    simp only [hcap, hq, if_pos]
    exact ⟨hbuf, hptr, hlen, hle, hcon⟩
  · have hq : ¬ (q.length + bytes.length > size) := by omega
    simp only [hcap, hq, if_neg, not_false_iff]
    have htl : (st.buf.take st.len).length = st.len :=
      by rw [List.length_take]; omega
    have hwlen : (writeAt st.buf st.len bytes).length = size := by
      unfold writeAt
      rw [List.length_append, List.length_append, htl, List.length_drop]
      omega
    refine ⟨hwlen, hptr, ?_, ?_, ?_⟩
    · simp [hlen]
    · show st.len + bytes.length ≤ size
      omega
    · show ovContents ⟨writeAt st.buf st.len bytes, st.ptr, st.len + bytes.length⟩ = q ++ bytes
      unfold ovContents writeAt
      rw [hptr, List.drop_zero]
      have hfront : ((st.buf.take st.len ++ bytes) ++ st.buf.drop (st.len + bytes.length)).take
          (st.len + bytes.length) = st.buf.take st.len ++ bytes :=
        List.take_left' (by rw [List.length_append, htl])
      rw [hfront]
      have hq0 : st.buf.take st.len = q := by
        have h0 := hcon
        unfold ovContents at h0
        rw [hptr, List.drop_zero] at h0
        exact h0
      rw [hq0]

theorem drainBursts_aligned (bpf size : Nat) (bs : List Burst) :
    ∀ (w : Nat) (st : OvState) (q : List Nat), OvAligned size st q →
    (drainBursts bpf size bs w st).1 = (fifoDrain bpf size bs w q).1 ∧
    (drainBursts bpf size bs w st).2.1 = (fifoDrain bpf size bs w q).2.1 ∧
    OvAligned size (drainBursts bpf size bs w st).2.2 (fifoDrain bpf size bs w q).2.2 := by
  induction bs with
  | nil =>
    intro w st q h
    exact ⟨rfl, rfl, h⟩
  | cons b bs ih =>
    intro w st q h
    have hkey : OvAligned size
        (if b.data.length / bpf > w / bpf
         then ovSave size st
           ((b.data.take (b.data.length / bpf * bpf)).drop
             (min (b.data.length / bpf) (w / bpf) * bpf))
         else st)
        (if b.data.length / bpf > w / bpf
         then fifoPush size q
           ((b.data.take (b.data.length / bpf * bpf)).drop
             (min (b.data.length / bpf) (w / bpf) * bpf))
         else q) := by
      by_cases hgt : b.data.length / bpf > w / bpf
      · simpa [hgt] using ovSave_aligned size st q
          ((b.data.take (b.data.length / bpf * bpf)).drop
            (min (b.data.length / bpf) (w / bpf) * bpf)) h
      · simpa [hgt] using h
    obtain ⟨e1, e2, h3⟩ :=
      ih (w - min (b.data.length / bpf) (w / bpf) * bpf) _ _ hkey
    simp only [drainBursts, fifoDrain]
    exact ⟨by rw [e1], by rw [e2], h3⟩

theorem readLoop_zero (bpf size : Nat) (ws : List Wake) (st : OvState) :
    readLoop bpf size ws 0 st = some ([], st) := by
  cases ws with
  | nil => rfl
  | cons wk rest => cases wk <;> rfl

theorem fifoReadLoop_zero (bpf size : Nat) (ws : List Wake) (q : List Nat) :
    fifoReadLoop bpf size ws 0 q = some ([], q) := by
  cases ws with
  | nil => rfl
  | cons wk rest => cases wk <;> rfl

theorem readLoop_aligned (bpf size : Nat) (wakes : List Wake) :
    ∀ (w : Nat) (st : OvState) (q : List Nat), OvAligned size st q →
    ovSimAligned size (readLoop bpf size wakes w st) (fifoReadLoop bpf size wakes w q) := by
  induction wakes with
  | nil =>
    intro w st q h
    cases w with
    | zero => rw [readLoop_zero, fifoReadLoop_zero]; exact ⟨rfl, h⟩
    | succ k => exact trivial
  | cons wk rest ih =>
    intro w st q h
    cases w with
    | zero => rw [readLoop_zero, fifoReadLoop_zero]; exact ⟨rfl, h⟩
    | succ k =>
      cases wk with
      | stopSignal => exact ⟨rfl, h⟩
      | dataReady bs =>
        obtain ⟨e1, e2, h3⟩ := drainBursts_aligned bpf size bs (k + 1) st q h
        have hrec := ih (drainBursts bpf size bs (k + 1) st).2.1
          (drainBursts bpf size bs (k + 1) st).2.2
          (fifoDrain bpf size bs (k + 1) q).2.2 h3
        rw [e2] at hrec
        show ovSimAligned size
          (match readLoop bpf size rest (drainBursts bpf size bs (k + 1) st).2.1
              (drainBursts bpf size bs (k + 1) st).2.2 with
           | some (o2, stf) => some ((drainBursts bpf size bs (k + 1) st).1 ++ o2, stf)
           | none => none)
          (match fifoReadLoop bpf size rest (fifoDrain bpf size bs (k + 1) q).2.1
              (fifoDrain bpf size bs (k + 1) q).2.2 with
           | some (o2, qf) => some ((fifoDrain bpf size bs (k + 1) q).1 ++ o2, qf)
           | none => none)
        rw [e2] at *
        cases hc : readLoop bpf size rest (fifoDrain bpf size bs (k + 1) q).2.1
            (drainBursts bpf size bs (k + 1) st).2.2 with
        | none =>
          rw [hc] at hrec
          cases hf : fifoReadLoop bpf size rest (fifoDrain bpf size bs (k + 1) q).2.1
              (fifoDrain bpf size bs (k + 1) q).2.2 with
          | none => exact trivial
          | some p => rw [hf] at hrec; exact absurd hrec (by cases p; simp [ovSimAligned])
        | some p =>
          rw [hc] at hrec
          cases hf : fifoReadLoop bpf size rest (fifoDrain bpf size bs (k + 1) q).2.1
              (fifoDrain bpf size bs (k + 1) q).2.2 with
          | none => rw [hf] at hrec; exact absurd hrec (by cases p; simp [ovSimAligned])
          | some p2 =>
            rw [hf] at hrec
            cases p with
            | mk o stf =>
              cases p2 with
              | mk o2 qf =>
                obtain ⟨ho, hal⟩ := hrec
                exact ⟨by rw [e1, ho], hal⟩

theorem wasapiRead_sim (bpf size : Nat) (st : OvState) (w : Nat) (wakes : List Wake)
    (h : OvInv size st) :
    ovSim size (wasapiRead bpf size st w wakes)
      (fifoRead bpf size (ovContents st) w wakes) := by
  have hql : (ovContents st).length = st.len := ovContents_length size st h
  by_cases hcase : st.len ≤ w
  · have hrest := ovRestore_full size st w h hcase
    have htake : (ovContents st).take w = ovContents st :=
      List.take_of_length_le (by omega)
    have hdrop : (ovContents st).drop w = [] := List.drop_eq_nil_of_le (by omega)
    have hmin : min (ovContents st).length w = st.len := by
      rw [hql]; exact Nat.min_eq_left hcase
    have hal : OvAligned size ⟨st.buf, 0, 0⟩ ([] : List Nat) := by
      refine ⟨h.1, rfl, rfl, Nat.zero_le size, ?_⟩
      unfold ovContents
      simp
    have hsim := readLoop_aligned bpf size wakes (w - st.len) ⟨st.buf, 0, 0⟩ [] hal
    unfold wasapiRead fifoRead
    rw [hrest, hmin, hdrop]
    simp only
    cases hc : readLoop bpf size wakes (w - st.len) ⟨st.buf, 0, 0⟩ with
    | none =>
      rw [hc] at hsim
      cases hf : fifoReadLoop bpf size wakes (w - st.len) [] with
      | none => exact trivial
      | some p => rw [hf] at hsim; exact absurd hsim (by cases p; simp [ovSimAligned])
    | some p =>
      rw [hc] at hsim
      cases hf : fifoReadLoop bpf size wakes (w - st.len) [] with
      | none => rw [hf] at hsim; exact absurd hsim (by cases p; simp [ovSimAligned])
      | some p2 =>
        rw [hf] at hsim
        cases p with
        | mk o stf =>
          cases p2 with
          | mk o2 qf =>
            obtain ⟨ho, hal2⟩ := hsim
            obtain ⟨hcq, hinv⟩ := ovAligned_inv size stf qf hal2
            exact ⟨by rw [htake, ho], hcq, hinv⟩
  · have hlt : w < st.len := by omega
    have hrest := ovRestore_partial st w hlt
    have hmin : min (ovContents st).length w = w := by
      rw [hql]; exact Nat.min_eq_right (by omega)
    unfold wasapiRead fifoRead
    rw [hrest, hmin]
    simp only
    rw [Nat.sub_self, readLoop_zero, fifoReadLoop_zero]
    refine ⟨by simp, ?_, ?_⟩
    · show ovContents ⟨st.buf, st.ptr + w, st.len - w⟩ = (ovContents st).drop w
      unfold ovContents
      rw [List.drop_take, List.drop_drop]
    · obtain ⟨h1, h2, h3⟩ := h
      refine ⟨h1, ?_, ?_⟩
      · show st.ptr + w + (st.len - w) ≤ size
        omega
      · show st.len - w = 0 → st.ptr + w = 0
        omega

theorem runReads_sim (bpf size : Nat) (calls : List (Nat × List Wake)) :
    ∀ (st : OvState), OvInv size st →
    ovSimRun size (runReads bpf size calls st) (fifoRun bpf size calls (ovContents st)) := by
  induction calls with
  | nil => intro st h; exact ⟨rfl, rfl, h⟩
  | cons c calls ih =>
    intro st h
    obtain ⟨w, ws⟩ := c
    have hsim := wasapiRead_sim bpf size st w ws h
    show ovSimRun size
      (match wasapiRead bpf size st w ws with
       | some (o, st1) =>
         match runReads bpf size calls st1 with
         | some (os, stf) => some (o :: os, stf)
         | none => none
       | none => none)
      (match fifoRead bpf size (ovContents st) w ws with
       | some (o, q1) =>
         match fifoRun bpf size calls q1 with
         | some (os, qf) => some (o :: os, qf)
         | none => none
       | none => none)
    cases hc : wasapiRead bpf size st w ws with
    | none =>
      rw [hc] at hsim
      cases hf : fifoRead bpf size (ovContents st) w ws with
      | none => exact trivial
      | some p => rw [hf] at hsim; exact absurd hsim (by cases p; simp [ovSim])
    | some p =>
      rw [hc] at hsim
      cases hf : fifoRead bpf size (ovContents st) w ws with
      | none => rw [hf] at hsim; exact absurd hsim (by cases p; simp [ovSim])
      | some p2 =>
        rw [hf] at hsim
        cases p with
        | mk o st1 =>
          cases p2 with
          | mk o2 q1 =>
            obtain ⟨ho, hcq, hinv⟩ := hsim
            have hrec := ih st1 hinv
            rw [hcq] at hrec
            show ovSimRun size
              (match runReads bpf size calls st1 with
               | some (os, stf) => some (o :: os, stf)
               | none => none)
              (match fifoRun bpf size calls q1 with
               | some (os, qf) => some (o2 :: os, qf)
               | none => none)
            cases hr : runReads bpf size calls st1 with
            | none =>
              rw [hr] at hrec
              cases hf2 : fifoRun bpf size calls q1 with
              | none => exact trivial
              | some p3 =>
                rw [hf2] at hrec; exact absurd hrec (by cases p3; simp [ovSimRun])
            | some p3 =>
              rw [hr] at hrec
              cases hf2 : fifoRun bpf size calls q1 with
              | none => rw [hf2] at hrec; exact absurd hrec (by cases p3; simp [ovSimRun])
              | some p4 =>
                rw [hf2] at hrec
                cases p3 with
                | mk os stf =>
                  cases p4 with
                  | mk os2 qf =>
                    obtain ⟨hos, hcf, hif⟩ := hrec
                    exact ⟨by rw [ho, hos], hcf, hif⟩

/- Claim theorems. -/

/-- C1: Overflow round-trip.  For every sequence of read calls starting
from a fresh overflow buffer, the concrete read path (array with read
pointer and valid length, restore block, drain loop with spill)
produces exactly the outputs of the abstract FIFO queue model: bytes
spilled by one call are returned on subsequent calls byte-identical
and in FIFO order, at the front of the output before any bytes freshly
fetched from the device, including after calls that consumed the
overflow contents only partially (read pointer > 0). -/
theorem overflow_roundtrip_refines_fifo (bpf size : Nat) (buf0 : List Nat)
    (calls : List (Nat × List Wake)) (hbuf : buf0.length = size) :
    ovSimRun size (runReads bpf size calls ⟨buf0, 0, 0⟩)
      (fifoRun bpf size calls []) := by
  have h0 : OvInv size ⟨buf0, 0, 0⟩ := ⟨hbuf, Nat.zero_le size, fun _ => rfl⟩
  have hmain := runReads_sim bpf size calls ⟨buf0, 0, 0⟩ h0
  have hc : ovContents ⟨buf0, 0, 0⟩ = [] := by unfold ovContents; simp
  rwa [hc] at hmain

/-- Witness for C1: a three-call session in which call 1 spills two
bytes, call 2 is served from the overflow head (leaving read pointer
1 > 0), and call 3 drains the rest. -/
theorem overflow_roundtrip_refines_fifo_witness :
    ([0, 0, 0, 0] : List Nat).length = 4 ∧
    ovSimRun 4
      (runReads 1 4 [(1, [Wake.dataReady [⟨false, [5, 6, 7]⟩]]), (1, []), (1, [])]
        ⟨[0, 0, 0, 0], 0, 0⟩)
      (fifoRun 1 4 [(1, [Wake.dataReady [⟨false, [5, 6, 7]⟩]]), (1, []), (1, [])] []) :=
  ⟨rfl, overflow_roundtrip_refines_fifo 1 4 [0, 0, 0, 0]
    [(1, [Wake.dataReady [⟨false, [5, 6, 7]⟩]]), (1, []), (1, [])] rfl⟩

/-- C2 (evaluation at the failing input): with bytes-per-frame 1 and a
fresh session, a read of 1 byte against a single silence-flagged burst
of 2 frames with raw payload [7, 7] zero-fills the destination but
spills the raw byte 7, and the following 1-byte read returns that raw
byte: the session output is [[0], [7]], not the [[0], [0]] required
when every byte originating from a silence-flagged burst is zero.
The spill block at lines 843-859 copies from the device pointer
without consulting the AUDCLNT_BUFFERFLAGS_SILENT flag that the
destination copy at lines 833-837 honours. -/
theorem silent_burst_spill_keeps_raw_bytes :
    (runReads 1 8 [(1, [Wake.dataReady [⟨true, [7, 7]⟩]]), (1, [])]
        ⟨List.replicate 8 0, 0, 0⟩).map (fun r => r.1) = some [[0], [7]] ∧
    ([[0], [7]] : List (List Nat)) ≠ [[0], [0]] := by
  exact ⟨by decide, by decide⟩

/-- C3 (evaluation at the failing input): the code's timestamp_diff
(line 1191) is ABS (GST_CLOCK_DIFF (timestamp, base_time)), which for
timestamp 5 and base_time 10 gives 5 whatever the reference clock
reads, while the specified |reference_clock_now - base_time -
timestamp| gives 85 at reference_clock_now = 100: the code ignores the
reference-clock reading entirely. -/
theorem timestamp_diff_ignores_reference_clock :
    timestamp_diff_code 5 10 = 5 ∧ timestamp_diff_spec 100 10 5 = 85 ∧
    timestamp_diff_code 5 10 ≠ timestamp_diff_spec 100 10 5 := by
  refine ⟨by decide, by decide, by decide⟩

/-- On the gint range the clamp branch of the offset calculator
computes exactly current-write-segment times samples-per-segment. -/
theorem get_offset_clamp_value (sps : Nat) (segdone : Int)
    (hsps : (sps : Int) < 2147483648) (hsd0 : 0 ≤ segdone)
    (hsd1 : segdone < 2147483648) :
    gintToU64 segdone * sps % U64 = segdone.toNat * sps := by
  rw [gintToU64_of_nonneg segdone hsd0 (by unfold U64; omega)]
  apply Nat.mod_eq_of_lt
  have h1 : segdone.toNat < 2147483648 := by omega
  have h2 : sps < 2147483648 := by exact_mod_cast hsps
  calc segdone.toNat * sps < 2147483648 * 2147483648 :=
        Nat.mul_lt_mul'' h1 h2
    _ < U64 := by unfold U64; omega

/-- C4: the offset calculator.  On the gint-representable range
(samples-per-segment and the write-segment count in gint range, the
target segment of next_sample representable as gint), the function
returns current_write_segment * samples_per_segment when next_sample
is the sentinel; the same catch-up position when current_write_segment
minus next_sample / samples_per_segment is at least total_segments
(consumer lapped, no error is signalled); and next_sample unchanged in
every other case. -/
theorem get_offset_cases (next_sample sps : Nat) (segtotal segdone : Int)
    (hsps : 0 < sps) (hspsr : (sps : Int) < 2147483648)
    (hsd0 : 0 ≤ segdone) (hsd1 : segdone < 2147483648)
    (hst : 0 < segtotal)
    (hfit : next_sample ≠ SAMPLE_NONE → next_sample / sps < 2147483648) :
    (next_sample = SAMPLE_NONE →
      gst_audio_base_src_get_offset next_sample sps segtotal segdone =
        segdone.toNat * sps) ∧
    (next_sample ≠ SAMPLE_NONE →
      segtotal ≤ segdone - ((next_sample / sps : Nat) : Int) →
      gst_audio_base_src_get_offset next_sample sps segtotal segdone =
        segdone.toNat * sps) ∧
    (next_sample ≠ SAMPLE_NONE →
      segdone - ((next_sample / sps : Nat) : Int) < segtotal →
      gst_audio_base_src_get_offset next_sample sps segtotal segdone = next_sample) := by
  have hclamp := get_offset_clamp_value sps segdone hspsr hsd0 hsd1
  refine ⟨?_, ?_, ?_⟩
  · intro h1
    simp only [gst_audio_base_src_get_offset, h1, ne_eq, not_true_eq_false,
      if_false, ite_false]
    exact hclamp
  · intro h1 h2
    have hq31 : next_sample / sps < 2147483648 := hfit h1
    have hq31i : ((next_sample / sps : Nat) : Int) < 2147483648 := by exact_mod_cast hq31
    have hq0 : (0 : Int) ≤ ((next_sample / sps : Nat) : Int) := Int.natCast_nonneg _
    simp only [gst_audio_base_src_get_offset, ne_eq, h1, not_false_iff, if_true,
      toGint_eq_self _ hq31,
      gintWrap_eq_self (segdone - ((next_sample / sps : Nat) : Int)) (by omega) (by omega)]
    rw [if_pos h2]
    exact hclamp
  · intro h1 h2
    have hq31 : next_sample / sps < 2147483648 := hfit h1
    have hq31i : ((next_sample / sps : Nat) : Int) < 2147483648 := by exact_mod_cast hq31
    have hq0 : (0 : Int) ≤ ((next_sample / sps : Nat) : Int) := Int.natCast_nonneg _
    simp only [gst_audio_base_src_get_offset, ne_eq, h1, not_false_iff, if_true,
      toGint_eq_self _ hq31,
      gintWrap_eq_self (segdone - ((next_sample / sps : Nat) : Int)) (by omega) (by omega)]
    rw [if_neg (by omega)]

/-- Witness for C4: sps 2, segtotal 3, segdone 5, next_sample 2 is a
lapped consumer (5 - 2 / 2 = 4 >= 3) and the result aligns to 5 * 2. -/
theorem get_offset_cases_witness :
    0 < 2 ∧ ((2 : Nat) : Int) < 2147483648 ∧ (0 : Int) ≤ 5 ∧ (5 : Int) < 2147483648 ∧
    (0 : Int) < 3 ∧ ((2 : Nat) ≠ SAMPLE_NONE → 2 / 2 < 2147483648) ∧
    (((2 : Nat) = SAMPLE_NONE →
      gst_audio_base_src_get_offset 2 2 3 5 = Int.toNat 5 * 2) ∧
    ((2 : Nat) ≠ SAMPLE_NONE →
      (3 : Int) ≤ 5 - (((2 : Nat) / 2 : Nat) : Int) →
      gst_audio_base_src_get_offset 2 2 3 5 = Int.toNat 5 * 2) ∧
    ((2 : Nat) ≠ SAMPLE_NONE →
      (5 : Int) - (((2 : Nat) / 2 : Nat) : Int) < 3 →
      gst_audio_base_src_get_offset 2 2 3 5 = 2)) :=
  ⟨by decide, by decide, by decide, by decide, by decide, fun _ => by decide,
    get_offset_cases 2 2 3 5 (by decide) (by decide) (by decide) (by decide)
      (by decide) (fun _ => by decide)⟩

/-- C6 counterexample: next_sample 8 while only segment 1 is written
(sps 1, segtotal 2): the calculator returns 8 unchanged, whose read
segment 8 is 7 segments away from the current write segment 1, more
than total_segments = 2, refuting "always within total_segments"
for states where next_sample is ahead of the write position. -/
theorem read_segment_ahead_counterexample :
    gst_audio_base_src_get_offset 8 1 2 1 = 8 ∧
    ¬ (((1 : Int) - ((gst_audio_base_src_get_offset 8 1 2 1 / 1 : Nat) : Int)).natAbs ≤ 2) := by
  exact ⟨by decide, by decide⟩

/-- C6 (amended): the resolved read segment never lags the current
write segment by total_segments or more: for every next_sample
(sentinel included) and gint-range write-segment count,
current_write_segment minus the resolved read segment is strictly less
than total_segments.  In the other direction no bound holds: a
next_sample ahead of the write position is returned unchanged and may
be arbitrarily far ahead. -/
theorem read_segment_lag_bound (next_sample sps : Nat) (segtotal segdone : Int)
    (hsps : 0 < sps) (hspsr : (sps : Int) < 2147483648)
    (hsd0 : 0 ≤ segdone) (hsd1 : segdone < 2147483648) (hst : 0 < segtotal) :
    segdone -
      ((gst_audio_base_src_get_offset next_sample sps segtotal segdone / sps : Nat) : Int)
      < segtotal := by
  have hclamp := get_offset_clamp_value sps segdone hspsr hsd0 hsd1
  have hclampdiv : (gintToU64 segdone * sps % U64) / sps = segdone.toNat := by
    rw [hclamp, Nat.mul_div_cancel _ hsps]
  have hclampgoal :
      segdone - (((gintToU64 segdone * sps % U64) / sps : Nat) : Int) < segtotal := by
    rw [hclampdiv]
    rw [Int.toNat_of_nonneg hsd0]
    omega
  by_cases hs : next_sample = SAMPLE_NONE
  · simp only [gst_audio_base_src_get_offset, hs, ne_eq, not_true_eq_false,
      if_false, ite_false]
    exact hclampgoal
  · by_cases hq31 : next_sample / sps < 2147483648
    · have hq31i : ((next_sample / sps : Nat) : Int) < 2147483648 := by exact_mod_cast hq31
      have hq0 : (0 : Int) ≤ ((next_sample / sps : Nat) : Int) := Int.natCast_nonneg _
      simp only [gst_audio_base_src_get_offset, ne_eq, hs, not_false_iff, if_true,
        toGint_eq_self _ hq31,
        gintWrap_eq_self (segdone - ((next_sample / sps : Nat) : Int)) (by omega) (by omega)]
      by_cases hge : segdone - ((next_sample / sps : Nat) : Int) ≥ segtotal
      · rw [if_pos hge]
        exact hclampgoal
      · rw [if_neg hge]
        omega
    · simp only [gst_audio_base_src_get_offset, ne_eq, hs, not_false_iff, if_true]
      split
      · exact hclampgoal
      · have hbig : 2147483648 ≤ next_sample / sps := by omega
        have hbigi : (2147483648 : Int) ≤ ((next_sample / sps : Nat) : Int) := by
          exact_mod_cast hbig
        omega

/-- Witness for C6 (amended): a lapped consumer (next_sample 2, sps 2,
segdone 5, segtotal 3) resolves to segment 5, lag 0 < 3. -/
theorem read_segment_lag_bound_witness :
    0 < 2 ∧ ((2 : Nat) : Int) < 2147483648 ∧ (0 : Int) ≤ 5 ∧ (5 : Int) < 2147483648 ∧
    (0 : Int) < 3 ∧
    (5 : Int) - ((gst_audio_base_src_get_offset 2 2 3 5 / 2 : Nat) : Int) < 3 :=
  ⟨by decide, by decide, by decide, by decide, by decide,
    read_segment_lag_bound 2 2 3 5 (by decide) (by decide) (by decide) (by decide)
      (by decide)⟩

/-- C5: in the Resample branch a drift correction fires if and only if
the drift (absolute difference between the latched
initial_timestamp_diff and the current timestamp_diff, taken as zero
when timestamp_diff is zero) strictly exceeds the threshold; when it
fires the latch is reset to unset and drift_correction_count grows by
exactly one, when it does not fire the counter is unchanged; and a
fired correction forces the Skew resync branch of line 1225. -/
theorem drift_correction_fires_iff (threshold ts : Int) (first_sample : Bool)
    (s : DriftState) (hts : 0 ≤ ts) :
    ((driftStep threshold first_sample ts s).1 = true ↔
      threshold <
        (if ts = 0 then 0 else
          |(if first_sample = false ∧ s.initial_timestamp_diff = 0 then ts
            else s.initial_timestamp_diff) - ts|)) ∧
    ((driftStep threshold first_sample ts s).1 = true →
      (driftStep threshold first_sample ts s).2.initial_timestamp_diff = 0 ∧
      (driftStep threshold first_sample ts s).2.drift_correction_count =
        s.drift_correction_count + 1) ∧
    ((driftStep threshold first_sample ts s).1 = false →
      (driftStep threshold first_sample ts s).2.drift_correction_count =
        s.drift_correction_count) ∧
    (∀ skew segtotal lrs : Int, (driftStep threshold first_sample ts s).1 = true →
      resampleResync skew segtotal lrs first_sample
        (driftStep threshold first_sample ts s).1) := by
  have hdz :
      (if ts > 0
        then |(if first_sample = false ∧ s.initial_timestamp_diff = 0 then ts
               else s.initial_timestamp_diff) - ts| else 0)
      = (if ts = 0 then 0 else
          |(if first_sample = false ∧ s.initial_timestamp_diff = 0 then ts
            else s.initial_timestamp_diff) - ts|) := by
    by_cases hz : ts = 0
    · simp [hz]
    · have hpos : ts > 0 := by omega
      simp [hz, hpos]
  by_cases hf : threshold <
      (if ts = 0 then 0 else
        |(if first_sample = false ∧ s.initial_timestamp_diff = 0 then ts
          else s.initial_timestamp_diff) - ts|)
  · have hstep : driftStep threshold first_sample ts s =
        (true, ⟨0, s.drift_correction_count + 1⟩) := by
      simp only [driftStep, hdz]
      rw [if_pos hf]
    refine ⟨?_, ?_, ?_, ?_⟩
    · rw [hstep]
      exact ⟨fun _ => hf, fun _ => rfl⟩
    · intro _
      rw [hstep]
      exact ⟨rfl, rfl⟩
    · intro hfalse
      rw [hstep] at hfalse
      exact absurd hfalse (by simp)
    · intro skew segtotal lrs _
      rw [hstep]
      exact Or.inr (Or.inr (Or.inr rfl))
  · have hstep : driftStep threshold first_sample ts s =
        (false, ⟨if first_sample = false ∧ s.initial_timestamp_diff = 0 then ts
                 else s.initial_timestamp_diff, s.drift_correction_count⟩) := by
      simp only [driftStep, hdz]
      rw [if_neg hf]
    refine ⟨?_, ?_, ?_, ?_⟩
    · rw [hstep]
      exact ⟨fun h => absurd h (by simp), fun hlt => absurd hlt hf⟩
    · intro htrue
      rw [hstep] at htrue
      exact absurd htrue (by simp)
    · intro _
      rw [hstep]
    · intro skew segtotal lrs htrue
      rw [hstep] at htrue
      exact absurd htrue (by simp)

/-- Witness for C5, the numbers of spec property P5: latched initial
diff 1000000 ns, threshold 5000000 ns, next timestamp_diff 6500000 ns:
drift 5500000 exceeds the threshold, the correction fires and the
counter is bumped. -/
theorem drift_correction_fires_iff_witness :
    (0 : Int) ≤ 6500000 ∧
    (((driftStep 5000000 false 6500000 ⟨1000000, 0⟩).1 = true ↔
      (5000000 : Int) <
        (if (6500000 : Int) = 0 then 0 else
          |(if false = false ∧ (⟨1000000, 0⟩ : DriftState).initial_timestamp_diff = 0
            then (6500000 : Int)
            else (⟨1000000, 0⟩ : DriftState).initial_timestamp_diff) - 6500000|)) ∧
    ((driftStep 5000000 false 6500000 ⟨1000000, 0⟩).1 = true →
      (driftStep 5000000 false 6500000 ⟨1000000, 0⟩).2.initial_timestamp_diff = 0 ∧
      (driftStep 5000000 false 6500000 ⟨1000000, 0⟩).2.drift_correction_count =
        (⟨1000000, 0⟩ : DriftState).drift_correction_count + 1) ∧
    ((driftStep 5000000 false 6500000 ⟨1000000, 0⟩).1 = false →
      (driftStep 5000000 false 6500000 ⟨1000000, 0⟩).2.drift_correction_count =
        (⟨1000000, 0⟩ : DriftState).drift_correction_count) ∧
    (∀ skew segtotal lrs : Int,
      (driftStep 5000000 false 6500000 ⟨1000000, 0⟩).1 = true →
      resampleResync skew segtotal lrs false
        (driftStep 5000000 false 6500000 ⟨1000000, 0⟩).1)) :=
  ⟨by decide, drift_correction_fires_iff 5000000 6500000 false ⟨1000000, 0⟩ (by decide)⟩

/-- C7 counterexample: a two-call session in which the first read is
flushed by the stop signal (auto-reset, so the event is consumed by
the one wait it releases) and the second read, woken by device data,
returns that data rather than completing immediately with silence:
the stop does not silence every subsequent read of the session. -/
theorem stop_event_not_persistent :
    runReads 1 2 [(2, [Wake.stopSignal]), (2, [Wake.dataReady [⟨false, [5, 6]⟩]])]
      ⟨[0, 0], 0, 0⟩ = some ([[0, 0], [5, 6]], ⟨[0, 0], 0, 0⟩) ∧
    ([5, 6] : List Nat) ≠ List.replicate 2 0 := by
  exact ⟨by decide, by decide⟩

/-- C7 (amended): a read call with bytes still wanted that receives
the stop signal immediately zero-fills the still-unsatisfied remainder
of the destination, returns the full requested length (no error), and
leaves the overflow buffer drained; because the stop event is created
auto-reset (bManualReset FALSE, line 267) it only affects the single
read call that consumes it. -/
theorem stop_signal_flushes_current_read (bpf size : Nat) (st : OvState) (w : Nat)
    (rest : List Wake) (h : OvInv size st) (hw : st.len < w) :
    wasapiRead bpf size st w (Wake.stopSignal :: rest) =
      some (ovContents st ++ List.replicate (w - st.len) 0, ⟨st.buf, 0, 0⟩) ∧
    (ovContents st ++ List.replicate (w - st.len) 0).length = w := by
  have hrest := ovRestore_full size st w h (Nat.le_of_lt hw)
  constructor
  · unfold wasapiRead
    rw [hrest]
    simp only
    obtain ⟨k, hk⟩ : ∃ k, w - st.len = k + 1 := ⟨w - st.len - 1, by omega⟩
    rw [hk]
    rfl
  · rw [List.length_append, List.length_replicate, ovContents_length size st h]
    omega

/-- Witness for C7 (amended): one byte already in overflow, request of
three bytes, stop signal: output is the overflow byte then two zeros. -/
theorem stop_signal_flushes_current_read_witness :
    OvInv 2 (OvState.mk [9, 9] 0 1) ∧ 1 < 3 ∧
    (wasapiRead 1 2 (OvState.mk [9, 9] 0 1) 3 [Wake.stopSignal] =
        some ([9, 0, 0], OvState.mk [9, 9] 0 0) ∧
      ([9, 0, 0] : List Nat).length = 3) :=
  ⟨by decide, by decide,
    stop_signal_flushes_current_read 1 2 (OvState.mk [9, 9] 0 1) 3 [] (by decide)
      (by decide)⟩

/-- C8: when a previous read has set the expected next sample, an
explicit offset whose sample index offset / bpf differs from it makes
the pull fail with the sequential-access violation (the error return
is taken before a buffer is allocated, so no buffer is delivered),
and an offset whose sample index equals it proceeds from that
sample. -/
theorem explicit_offset_must_be_sequential (offset bpf next_sample sps : Nat)
    (segtotal segdone : Int)
    (hoff : offset ≠ SAMPLE_NONE) (hns : next_sample ≠ SAMPLE_NONE) :
    (offset / bpf ≠ next_sample →
      resolveStartSample offset bpf next_sample sps segtotal segdone =
        CreateResult.sequentialAccessViolation) ∧
    (offset / bpf = next_sample →
      resolveStartSample offset bpf next_sample sps segtotal segdone =
        CreateResult.proceed next_sample) := by
  constructor
  · intro hne
    simp only [resolveStartSample]
    rw [if_pos hoff, if_pos ⟨hns, hne⟩]
  · intro heq
    simp only [resolveStartSample]
    rw [if_pos hoff, if_neg (by simp [heq]), heq]

/-- Witness for C8: with next_sample 100 and 4 bytes per frame, offset
400 (sample 100) proceeds while offset 444 (sample 111) violates. -/
theorem explicit_offset_must_be_sequential_witness :
    (444 : Nat) ≠ SAMPLE_NONE ∧ (100 : Nat) ≠ SAMPLE_NONE ∧
    ((444 / 4 ≠ 100 →
      resolveStartSample 444 4 100 960 23 7 =
        CreateResult.sequentialAccessViolation) ∧
    (444 / 4 = 100 →
      resolveStartSample 444 4 100 960 23 7 = CreateResult.proceed 100)) :=
  ⟨by decide, by decide,
    explicit_offset_must_be_sequential 444 4 100 960 23 7 (by decide) (by decide)⟩

/-- C10: on the very first pull of a session (next_sample is the
sentinel) any explicit offset is accepted with no sequential-access
check, and the read proceeds from sample offset / bytes-per-frame. -/
theorem first_pull_accepts_any_offset (offset bpf sps : Nat) (segtotal segdone : Int)
    (hoff : offset ≠ SAMPLE_NONE) :
    resolveStartSample offset bpf SAMPLE_NONE sps segtotal segdone =
      CreateResult.proceed (offset / bpf) := by
  simp only [resolveStartSample]
  rw [if_pos hoff, if_neg (by simp)]

/-- Witness for C10: first pull with explicit offset 444 at 4 bytes
per frame starts at sample 111. -/
theorem first_pull_accepts_any_offset_witness :
    (444 : Nat) ≠ SAMPLE_NONE ∧
    resolveStartSample 444 4 SAMPLE_NONE 960 23 7 = CreateResult.proceed (444 / 4) :=
  ⟨by decide, first_pull_accepts_any_offset 444 4 960 23 7 (by decide)⟩

/-- Once eos_sent is set no further notification is emitted along a
device-loss session. -/
theorem deviceLossTrace_no_renotify (ls : List Nat) :
    notifyCount (deviceLossTrace true ls) = 0 := by
  induction ls with
  | nil => rfl
  | cons l ls ih => simpa [deviceLossTrace, deviceLossRead, notifyCount] using ih

/-- Every device-loss read returns its originally requested length. -/
theorem deviceLossTrace_returns (ls : List Nat) :
    ∀ eos : Bool, (deviceLossTrace eos ls).map (fun p => p.2) = ls := by
  induction ls with
  | nil => intro eos; rfl
  | cons l ls ih =>
    intro eos
    simp [deviceLossTrace, deviceLossRead, ih]

/-- C9: within one session (eos_sent starts FALSE) in which every read
call encounters device loss, the device-lost notification is emitted
exactly once, namely by the first such call, and every call returns
its originally requested length. -/
theorem device_loss_notified_once (l : Nat) (ls : List Nat) :
    notifyCount (deviceLossTrace false (l :: ls)) = 1 ∧
    (deviceLossTrace false (l :: ls)).head? = some (true, l) ∧
    (deviceLossTrace false (l :: ls)).map (fun p => p.2) = l :: ls := by
  refine ⟨?_, ?_, ?_⟩
  · show notifyCount ((true, l) :: deviceLossTrace true ls) = 1
    have h0 := deviceLossTrace_no_renotify ls
    simp only [notifyCount, List.filter] at h0 ⊢
    simp [h0]
  · rfl
  · show ((true, l) :: deviceLossTrace true ls).map (fun p => p.2) = l :: ls
    simp [deviceLossTrace_returns ls true]
